import Mathlib

/-!
Shallow embedding of `movie.py` (a TF-IDF based movie recommender) and
verification of its specification claims.

Conventions of the embedding:
* Python strings are Lean `String` (a wrapper around `List Char`); Python
  `str.lower` is modelled by ASCII `Char.toLower`, which agrees with Python
  on all ASCII data.
* A pandas cell that may be NaN is `Option String` (`none` = NaN), which is
  what `pd.read_csv` delivers for the four structured text columns.
* `json.loads` is modelled by an executable recursive-descent JSON reader
  (`Json.parse`) over `List Char` with a fuel argument large enough for any
  input of the given length; a Python exception inside `json.loads` is
  `Option.none`.
* Python code paths that raise an uncaught exception are modelled by
  `Option.none` (record pipeline) or by the `RecOutcome.exn` constructor
  (query path).
* Real-valued library computations (TF-IDF weights, cosine similarities)
  are modelled over `ℝ`; everything else is executable.
-/

namespace MovieRec

/-- The apostrophe character (U+0027), kept as a named constant. -/
def squote : Char := Char.ofNat 39

/-- The double-quote character (U+0022). -/
def dquote : Char := Char.ofNat 34

/-- Python values produced by `json.loads`: null, booleans, numbers
(kept as their source lexeme), strings, lists and dicts. -/
inductive JsonVal where
  | jnull : JsonVal
  | jbool (b : Bool) : JsonVal
  | jnum (lexeme : String) : JsonVal
  | jstr (s : String) : JsonVal
  | jarr (elems : List JsonVal) : JsonVal
  | jobj (fields : List (String × JsonVal)) : JsonVal
deriving Repr

namespace Json

/-- JSON insignificant whitespace, as accepted by Python `json`. -/
def isWs (c : Char) : Bool :=
  c = ' ' || c = Char.ofNat 9 || c = Char.ofNat 10 || c = Char.ofNat 13

/-- Drop leading JSON whitespace. -/
def skipWs : List Char → List Char
  | [] => []
  | c :: cs => if isWs c then skipWs cs else c :: cs

/-- Value of one hexadecimal digit, if any. -/
def hexVal (c : Char) : Option Nat :=
  if '0' ≤ c ∧ c ≤ '9' then some (c.toNat - 48)
  else if 'a' ≤ c ∧ c ≤ 'f' then some (c.toNat - 87)
  else if 'A' ≤ c ∧ c ≤ 'F' then some (c.toNat - 55)
  else none

/-- Translation of a single-character JSON escape; `none` for the
invalid escapes Python `json` rejects. -/
def escChar (c : Char) : Option Char :=
  if c = dquote then some dquote
  else if c = '\\' then some '\\'
  else if c = '/' then some '/'
  else if c = 'b' then some (Char.ofNat 8)
  else if c = 'f' then some (Char.ofNat 12)
  else if c = 'n' then some (Char.ofNat 10)
  else if c = 'r' then some (Char.ofNat 13)
  else if c = 't' then some (Char.ofNat 9)
  else none

/-- Body of a JSON string after the opening quote, in strict mode
(unescaped control characters rejected), with fuel. Returns the decoded
characters and the remaining input. -/
def strBody : Nat → List Char → Option (List Char × List Char)
  | 0, _ => none
  | _, [] => none
  | fuel + 1, c :: cs =>
    if c = dquote then some ([], cs)
    else if c = '\\' then
      match cs with
      | [] => none
      | e :: cs2 =>
        if e = 'u' then
          match cs2 with
          | a :: b :: c3 :: d :: cs3 =>
            match hexVal a, hexVal b, hexVal c3, hexVal d with
            | some ha, some hb, some hc, some hd =>
              match strBody fuel cs3 with
              | some (rest, rem) =>
                some (Char.ofNat (((ha * 16 + hb) * 16 + hc) * 16 + hd) :: rest, rem)
              | none => none
            | _, _, _, _ => none
          | _ => none
        else
          match escChar e with
          | some ch =>
            match strBody fuel cs2 with
            | some (rest, rem) => some (ch :: rest, rem)
            | none => none
          | none => none
    else if c.toNat < 32 then none
    else
      match strBody fuel cs with
      | some (rest, rem) => some (c :: rest, rem)
      | none => none

/-- ASCII decimal digit test. -/
def isDig (c : Char) : Bool := '0' ≤ c && c ≤ '9'

/-- One-or-more decimal digits; returns them and the rest. -/
def digits1 (l : List Char) : Option (List Char × List Char) :=
  match l.span isDig with
  | ([], _) => none
  | (ds, rest) => some (ds, rest)

/-- JSON number grammar as matched by Python `json`
(`-?(0|[1-9][0-9]*)(\.[0-9]+)?([eE][+-]?[0-9]+)?`); returns the lexeme. -/
def numLex (l : List Char) : Option (List Char × List Char) :=
  let (sign, l1) :=
    match l with
    | '-' :: rest => ([Char.ofNat 45], rest)
    | _ => (([] : List Char), l)
  match l1 with
  | [] => none
  | c :: _ =>
    if ¬ isDig c then none
    else
      match digits1 l1 with
      | none => none
      | some (ds, l2) =>
        if ds.length > 1 ∧ ds.headD '0' = '0' then none
        else
          let fracRes : Option (List Char × List Char) :=
            match l2 with
            | '.' :: l2a =>
              match digits1 l2a with
              | some (fs, l2b) => some (('.' :: fs), l2b)
              | none => none
            | _ => some (([] : List Char), l2)
          match fracRes with
          | none => none
          | some (frac, l3) =>
            let (ex, l4) :=
              match l3 with
              | e :: l3a =>
                if e = 'e' ∨ e = 'E' then
                  match l3a with
                  | s :: l3b =>
                    if s = '+' ∨ s = '-' then
                      match digits1 l3b with
                      | some (es, l3c) => ((e :: s :: es), l3c)
                      | none => (([] : List Char), l3)
                    else
                      match digits1 l3a with
                      | some (es, l3c) => ((e :: es), l3c)
                      | none => (([] : List Char), l3)
                  | [] => (([] : List Char), l3)
                else (([] : List Char), l3)
              | [] => (([] : List Char), l3)
            some (sign ++ ds ++ frac ++ ex, l4)

mutual

/-- One JSON value (with leading whitespace), with fuel. Mirrors what
Python `json.loads` accepts, including the non-standard `NaN`,
`Infinity` and `-Infinity` literals. -/
def parseVal : Nat → List Char → Option (JsonVal × List Char)
  | 0, _ => none
  | fuel + 1, l =>
    match skipWs l with
    | [] => none
    | c :: cs =>
      if c = Char.ofNat 123 then
        parseMembers fuel (skipWs cs) true
      else if c = '[' then
        parseElems fuel (skipWs cs) true
      else if c = dquote then
        match strBody (cs.length + 1) cs with
        | some (body, rem) => some (JsonVal.jstr ⟨body⟩, rem)
        | none => none
      else
        match c :: cs with
        | 't' :: 'r' :: 'u' :: 'e' :: rest => some (JsonVal.jbool true, rest)
        | 'f' :: 'a' :: 'l' :: 's' :: 'e' :: rest => some (JsonVal.jbool false, rest)
        | 'n' :: 'u' :: 'l' :: 'l' :: rest => some (JsonVal.jnull, rest)
        | 'N' :: 'a' :: 'N' :: rest => some (JsonVal.jnum ("NaN"), rest)
        | 'I' :: 'n' :: 'f' :: 'i' :: 'n' :: 'i' :: 't' :: 'y' :: rest =>
          some (JsonVal.jnum ("Infinity"), rest)
        | '-' :: 'I' :: 'n' :: 'f' :: 'i' :: 'n' :: 'i' :: 't' :: 'y' :: rest =>
          some (JsonVal.jnum ("-Infinity"), rest)
        | l2 =>
          match numLex l2 with
          | some (lex, rest) => some (JsonVal.jnum ⟨lex⟩, rest)
          | none => none

/-- Elements of a JSON array after the opening bracket (whitespace already
skipped); `first` is true before the first element. -/
def parseElems : Nat → List Char → Bool → Option (JsonVal × List Char)
  | 0, _, _ => none
  | fuel + 1, l, first =>
    match l with
    | ']' :: rest => if first then some (JsonVal.jarr [], rest) else none
    | _ =>
      match parseVal fuel l with
      | none => none
      | some (v, rem) =>
        match parseElemsTail fuel (skipWs rem) with
        | some (JsonVal.jarr vs, rest) => some (JsonVal.jarr (v :: vs), rest)
        | _ => none

/-- After one array element: either `]` or `,` followed by more elements. -/
def parseElemsTail : Nat → List Char → Option (JsonVal × List Char)
  | 0, _ => none
  | fuel + 1, l =>
    match l with
    | ']' :: rest => some (JsonVal.jarr [], rest)
    | ',' :: rest =>
      match parseVal fuel (skipWs rest) with
      | none => none
      | some (v, rem) =>
        match parseElemsTail fuel (skipWs rem) with
        | some (JsonVal.jarr vs, rest2) => some (JsonVal.jarr (v :: vs), rest2)
        | _ => none
    | _ => none

/-- Members of a JSON object after the opening brace (whitespace already
skipped); `first` is true before the first member. -/
def parseMembers : Nat → List Char → Bool → Option (JsonVal × List Char)
  | 0, _, _ => none
  | fuel + 1, l, first =>
    match l with
    | c :: rest =>
      if c = Char.ofNat 125 then
        if first then some (JsonVal.jobj [], rest) else none
      else if c = dquote then
        match strBody (rest.length + 1) rest with
        | none => none
        | some (key, rem) =>
          match skipWs rem with
          | ':' :: rem2 =>
            match parseVal fuel rem2 with
            | none => none
            | some (v, rem3) =>
              match parseMembersTail fuel (skipWs rem3) with
              | some (JsonVal.jobj kvs, rest2) =>
                some (JsonVal.jobj ((⟨key⟩, v) :: kvs), rest2)
              | _ => none
          | _ => none
      else none
    | [] => none

/-- After one object member: either `\x7d` or `,` followed by more members. -/
def parseMembersTail : Nat → List Char → Option (JsonVal × List Char)
  | 0, _ => none
  | fuel + 1, l =>
    match l with
    | c :: rest =>
      if c = Char.ofNat 125 then some (JsonVal.jobj [], rest)
      else if c = ',' then
        match skipWs rest with
        | d :: rest2 =>
          if d = dquote then
            match strBody (rest2.length + 1) rest2 with
            | none => none
            | some (key, rem) =>
              match skipWs rem with
              | ':' :: rem2 =>
                match parseVal fuel rem2 with
                | none => none
                | some (v, rem3) =>
                  match parseMembersTail fuel (skipWs rem3) with
                  | some (JsonVal.jobj kvs, rest3) =>
                    some (JsonVal.jobj ((⟨key⟩, v) :: kvs), rest3)
                  | _ => none
              | _ => none
          else none
        | [] => none
      else none
    | [] => none

end

/-- `json.loads`: parse a complete JSON document, rejecting trailing
data. `none` models a raised `JSONDecodeError`. -/
def parse (s : String) : Option JsonVal :=
  match parseVal (4 * (s.data.length + 1)) s.data with
  | some (v, rest) => if skipWs rest = [] then some v else none
  | none => none

end Json

/-- `data.replace("'", '"')`: substitute every apostrophe by a double
quote (single-character replacement is a character map). -/
def jsonSub (s : String) : String :=
  ⟨s.data.map (fun c => if c = squote then dquote else c)⟩

/-- `safe_json_loads` (movie.py:54-61): `[]` when the cell is NaN
(`none`), else `json.loads` of the apostrophe-substituted text, with any
parse failure degrading to `[]`.  Input is `Option String` because the
four structured CSV columns deliver a string or NaN to this function. -/
def safe_json_loads : Option String → JsonVal
  | none => JsonVal.jarr []
  | some s =>
    match Json.parse (jsonSub s) with
    | some v => v
    | none => JsonVal.jarr []

/-- Python dict lookup on the parsed object fields (later duplicate keys
overwrite earlier ones, hence the last binding wins). -/
def dictGet (kvs : List (String × JsonVal)) (k : String) : Option JsonVal :=
  ((kvs.filter (fun p => p.1 = k)).getLast?).map (fun p => p.2)

/-- Loop body of `get_director`: scan members for the first one whose
`job` equals `"Director"`; `none` models the uncaught `AttributeError`
raised when a scanned member is not a dict. -/
def getDirGo : List JsonVal → Option JsonVal
  | [] => some (JsonVal.jstr "")
  | JsonVal.jobj kvs :: rest =>
    match dictGet kvs ("job") with
    | some (JsonVal.jstr s) =>
      if s = "Director" then some ((dictGet kvs ("name")).getD (JsonVal.jstr ""))
      else getDirGo rest
    | _ => getDirGo rest
  | _ :: _ => none

/-- `get_director` (movie.py:63-69): first crew member whose `job` is
exactly `"Director"` yields its `name` (default `""`); a non-list crew
value yields `""`. -/
def get_director : JsonVal → Option JsonVal
  | JsonVal.jarr l => getDirGo l
  | _ => some (JsonVal.jstr "")

/-- Option-valued map over a list, failing as soon as one element fails
(the behaviour of a Python list comprehension whose body may raise). -/
def mapOpt (f : α → Option β) : List α → Option (List β)
  | [] => some []
  | a :: l =>
    match f a, mapOpt f l with
    | some b, some bs => some (b :: bs)
    | _, _ => none

/-- `i['name']` for one entity: `none` models the uncaught
`KeyError`/`TypeError` when the element is not a dict or lacks `name`. -/
def nameOf : JsonVal → Option JsonVal
  | JsonVal.jobj kvs => dictGet kvs ("name")
  | _ => none

/-- `[i['name'] for i in x] if isinstance(x, list) else []`
(movie.py:44). -/
def extract_names : JsonVal → Option (List JsonVal)
  | JsonVal.jarr l => mapOpt nameOf l
  | _ => some []

/-- `[i['name'] for i in x[:3]] if isinstance(x, list) else []`
(movie.py:45): as `extract_names` but restricted to the first three
elements. -/
def extract_names_top3 : JsonVal → Option (List JsonVal)
  | JsonVal.jarr l => mapOpt nameOf (l.take 3)
  | _ => some []

/-- `i.replace(" ", "")`: remove every space character. -/
def removeSpaces (s : String) : String :=
  ⟨s.data.filter (fun c => ¬ (c = ' '))⟩

/-- Python `str.lower`, restricted to the ASCII range as `Char.toLower`. -/
def lowerStr (s : String) : String :=
  ⟨s.data.map Char.toLower⟩

/-- `str.lower(i.replace(" ", ""))` — the per-string cleaning step of
`clean_data` (movie.py:74,76). -/
def cleanStr (s : String) : String := lowerStr (removeSpaces s)

/-- `clean_data` on a list of extracted name values: each element is
cleaned as a string; `none` models the uncaught `AttributeError` on a
non-string element. -/
def cleanList (l : List JsonVal) : Option (List String) :=
  mapOpt (fun i =>
    match i with
    | JsonVal.jstr s => some (cleanStr s)
    | _ => none) l

/-- `clean_data` applied to the director value (movie.py:71-78): a string
is cleaned; a list leads to an uncaught crash (either `AttributeError` in
`clean_data` or `TypeError` when `create_soup` concatenates it); any
other value falls to the `else` branch and becomes `''`. -/
def cleanDirector : JsonVal → Option String
  | JsonVal.jstr s => some (cleanStr s)
  | JsonVal.jarr _ => none
  | _ => some ""

/-- `create_soup` (movie.py:80-82):
`' '.join(keywords) + ' ' + ' '.join(cast) + ' ' + director + ' ' + ' '.join(genres)`. -/
def create_soup (keywords cast : List String) (director : String)
    (genres : List String) : String :=
  String.intercalate (" ") keywords ++ " " ++ String.intercalate (" ") cast
    ++ " " ++ director ++ " " ++ String.intercalate (" ") genres

/-- One raw movie record as delivered to the cleaning pipeline: a title
and the four structured CSV cells, each a string or NaN. -/
structure RawRecord where
  title : String
  genres : Option String
  keywords : Option String
  cast : Option String
  crew : Option String
deriving Repr, DecidableEq

/-- One fully prepared movie row of the dataframe. -/
structure Movie where
  title : String
  genres : List String
  keywords : List String
  cast : List String
  director : String
  soup : String
deriving Repr, DecidableEq

/-- The per-record part of `load_and_prepare_data` (movie.py:38-50):
parse the four structured fields, extract the director, extract name
lists (cast limited to three), clean every string, and build the soup.
`none` models a record on which the pipeline raises. -/
def prepare_record (r : RawRecord) : Option Movie :=
  let g := safe_json_loads r.genres
  let k := safe_json_loads r.keywords
  let c := safe_json_loads r.cast
  let w := safe_json_loads r.crew
  match get_director w with
  | none => none
  | some dval =>
    match extract_names g, extract_names k, extract_names_top3 c with
    | some gn, some kn, some cn =>
      match cleanList gn, cleanList kn, cleanList cn, cleanDirector dval with
      | some gl, some kl, some cl, some dir =>
        some ⟨r.title, gl, kl, cl, dir, create_soup kl cl dir gl⟩
      | _, _, _, _ => none
    | _, _, _ => none

/-! ### Vectorizer (`TfidfVectorizer(stop_words='english')`) -/

/-- The fixed English stop-word list used by
`TfidfVectorizer(stop_words='english')`. -/
def englishStopWords : List String :=
  ["a", "about", "above", "across", "after", "afterwards", "again",
   "against", "all", "almost", "alone", "along", "already", "also",
   "although", "always", "am", "among", "amongst", "amoungst", "amount",
   "an", "and", "another", "any", "anyhow", "anyone", "anything",
   "anyway", "anywhere", "are", "around", "as", "at", "back", "be",
   "became", "because", "become", "becomes", "becoming", "been",
   "before", "beforehand", "behind", "being", "below", "beside",
   "besides", "between", "beyond", "bill", "both", "bottom", "but",
   "by", "call", "can", "cannot", "cant", "co", "con", "could",
   "couldnt", "cry", "de", "describe", "detail", "do", "done", "down",
   "due", "during", "each", "eg", "eight", "either", "eleven", "else",
   "elsewhere", "empty", "enough", "etc", "even", "ever", "every",
   "everyone", "everything", "everywhere", "except", "few", "fifteen",
   "fifty", "fill", "find", "fire", "first", "five", "for", "former",
   "formerly", "forty", "found", "four", "from", "front", "full",
   "further", "get", "give", "go", "had", "has", "hasnt", "have", "he",
   "hence", "her", "here", "hereafter", "hereby", "herein", "hereupon",
   "hers", "herself", "him", "himself", "his", "how", "however",
   "hundred", "i", "ie", "if", "in", "inc", "indeed", "interest",
   "into", "is", "it", "its", "itself", "keep", "last", "latter",
   "latterly", "least", "less", "ltd", "made", "many", "may", "me",
   "meanwhile", "might", "mill", "mine", "more", "moreover", "most",
   "mostly", "move", "much", "must", "my", "myself", "name", "namely",
   "neither", "never", "nevertheless", "next", "nine", "no", "nobody",
   "none", "noone", "nor", "not", "nothing", "now", "nowhere", "of",
   "off", "often", "on", "once", "one", "only", "onto", "or", "other",
   "others", "otherwise", "our", "ours", "ourselves", "out", "over",
   "own", "part", "per", "perhaps", "please", "put", "rather", "re",
   "same", "see", "seem", "seemed", "seeming", "seems", "serious",
   "several", "she", "should", "show", "side", "since", "sincere",
   "six", "sixty", "so", "some", "somehow", "someone", "something",
   "sometime", "sometimes", "somewhere", "still", "such", "system",
   "take", "ten", "than", "that", "the", "their", "them", "themselves",
   "then", "thence", "there", "thereafter", "thereby", "therefore",
   "therein", "thereupon", "these", "they", "thick", "thin", "third",
   "this", "those", "though", "three", "through", "throughout", "thru",
   "thus", "to", "together", "too", "top", "toward", "towards",
   "twelve", "twenty", "two", "un", "under", "until", "up", "upon",
   "us", "very", "via", "was", "we", "well", "were", "what", "whatever",
   "when", "whence", "whenever", "where", "whereafter", "whereas",
   "whereby", "wherein", "whereupon", "wherever", "whether", "which",
   "while", "whither", "who", "whoever", "whole", "whom", "whose",
   "why", "will", "with", "within", "without", "would", "yet", "you",
   "your", "yours", "yourself", "yourselves"]

/-- Word character of the default token pattern (ASCII restriction of
the regex class backslash-w). -/
def isWordChar (c : Char) : Bool := c.isAlphanum || c = '_'

/-- The default tokenizer of `TfidfVectorizer`: lowercase the document,
then take every maximal run of at least two word characters. -/
def tokenize (s : String) : List String :=
  (((s.data.map Char.toLower).splitOnP (fun c => !(isWordChar c))).filter
     (fun w => 2 ≤ w.length)).map (fun w => (⟨w⟩ : String))

/-- Tokens of one document that survive stop-word removal. -/
def docTokens (s : String) : List String :=
  (tokenize s).filter (fun t => decide (t ∉ englishStopWords))

/-- Token lists of every corpus document, in corpus order. -/
def docsOf (soups : List String) : List (List String) := soups.map docTokens

/-- The fitted vocabulary: every distinct surviving token. -/
def vocabOf (soups : List String) : List String :=
  ((docsOf soups).flatten).dedup

/-- Document frequency of token `t` over the corpus. -/
def dfCount (soups : List String) (t : String) : Nat :=
  ((docsOf soups).filter (fun d => decide (t ∈ d))).length

/-- Smoothed inverse document frequency
(`ln((1 + n) / (1 + df)) + 1`, the sklearn default). -/
noncomputable def idf (soups : List String) (t : String) : ℝ :=
  Real.log (((soups.length : ℝ) + 1) / ((dfCount soups t : ℝ) + 1)) + 1

/-- Unnormalized TF-IDF weight of token `t` in document `d`. -/
noncomputable def tfidfW (soups : List String) (d : List String) (t : String) : ℝ :=
  (d.count t : ℝ) * idf soups t

/-- Squared Euclidean norm of a document's TF-IDF row. -/
noncomputable def sqnorm (soups : List String) (d : List String) : ℝ :=
  ∑ t ∈ (vocabOf soups).toFinset, (tfidfW soups d t) ^ 2

/-- L2-normalized TF-IDF weight; an all-zero row is left all-zero
(sklearn `normalize` treats a zero norm as one). -/
noncomputable def nweight (soups : List String) (d : List String) (t : String) : ℝ :=
  if sqnorm soups d = 0 then 0
  else tfidfW soups d t / Real.sqrt (sqnorm soups d)

/-- Cosine similarity (`linear_kernel` of the L2-normalized rows) of two
token lists. -/
noncomputable def simDocs (soups : List String) (d e : List String) : ℝ :=
  ∑ t ∈ (vocabOf soups).toFinset, nweight soups d t * nweight soups e t

/-- The similarity matrix entry for rows `i`, `j`; out-of-range rows are
the empty document, giving `0`. -/
noncomputable def cosine_simR (soups : List String) (i j : Nat) : ℝ :=
  simDocs soups ((docsOf soups).getD i []) ((docsOf soups).getD j [])

/-! ### Title index and engine construction -/

/-- `pd.Series.drop_duplicates` on a series of (title ↦ row) entries:
keep an entry only if its VALUE (the row number) has not been seen
before. The second argument accumulates the values seen so far. -/
def dropDupVals : List (String × Nat) → List Nat → List (String × Nat)
  | [], _ => []
  | p :: rest, seen =>
    if p.2 ∈ seen then dropDupVals rest seen
    else p :: dropDupVals rest (p.2 :: seen)

/-- `indices = pd.Series(df.index, index=df['title']).drop_duplicates()`
(movie.py:92): the (title, row) pairs in corpus order, deduplicated by
VALUE — which never removes anything, since the row numbers are already
distinct. -/
def build_indices (df : List Movie) : List (String × Nat) :=
  dropDupVals ((df.map (fun m => m.title)).enum.map (fun p => (p.2, p.1))) []

/-- The message of the `ValueError` sklearn raises when fitting finds an
empty vocabulary. -/
def emptyVocabMsg : String :=
  "empty vocabulary; perhaps the documents only contain stop words"

/-- `create_recommendation_engine` (movie.py:86-93): fit TF-IDF over the
soups and build the cosine-similarity matrix and the title index.
`Except.error` models the uncaught `ValueError` that
`TfidfVectorizer.fit_transform` raises when the corpus yields an empty
vocabulary (including the empty corpus). -/
noncomputable def create_recommendation_engine (df : List Movie) :
    Except String ((Nat → Nat → ℝ) × List (String × Nat)) :=
  let soups := df.map (fun m => m.soup)
  if vocabOf soups = [] then Except.error emptyVocabMsg
  else Except.ok (cosine_simR soups, build_indices df)

/-! ### Query path (`get_recommendations`, movie.py:95-108)

The similarity matrix is passed to `get_recommendations` as an argument;
for the executable query path it is modelled as an exact rational
matrix. -/

/-- Outcome of one `get_recommendations` call: a returned list, a
returned not-found message string, or an uncaught exception. -/
inductive RecOutcome where
  | list (l : List String) : RecOutcome
  | message (s : String) : RecOutcome
  | exn : RecOutcome
deriving Repr, DecidableEq

/-- `f"Sorry, the movie '\x7btitle\x7d' was not found in our database."` -/
def notFoundMsg (title : String) : String :=
  "Sorry, the movie " ++ String.singleton squote ++ title
    ++ String.singleton squote ++ " was not found in our database."

/-- The index labels (`indices.keys()`), in corpus order. -/
def titleKeys (indices : List (String × Nat)) : List String :=
  indices.map (fun p => p.1)

/-- Title resolution (movie.py:97-101): exact membership first, then the
first case-insensitive match over the keys in order; `none` when both
fail. -/
def resolve_title (title : String) (indices : List (String × Nat)) : Option String :=
  if title ∈ titleKeys indices then some title
  else
    match (titleKeys indices).filter (fun t => lowerStr t = lowerStr title) with
    | [] => none
    | t :: _ => some t

/-- `indices[t]`: every row number stored under label `t`, in order. -/
def lookupAll (indices : List (String × Nat)) (t : String) : List Nat :=
  (indices.filter (fun p => p.1 = t)).map (fun p => p.2)

/-- `sorted(sim_scores, key=lambda x: x[1], reverse=True)`: the stable
descending sort by score. `List.insertionSort` with this relation
inserts each element before the first earlier-sorted element of
less-or-equal score, which is exactly the stable descending order. -/
def sortScores (l : List (Nat × ℚ)) : List (Nat × ℚ) :=
  List.insertionSort (fun a b => b.2 ≤ a.2) l

/-- movie.py:104-107 for a scalar row index: enumerate the row, sort
stably by descending score, slice `[1:11]`, and keep the row numbers. -/
def get_rec_indices (idx : Nat) (cosine_sim : List (List ℚ)) : List Nat :=
  ((sortScores (cosine_sim.getD idx []).enum).drop 1).take 10 |>.map (fun p => p.1)

/-- Placeholder movie used only as the (never reached) default of a
guarded positional lookup. -/
def arbitraryMovie : Movie := ⟨"", [], [], [], "", ""⟩

/-- The part of `get_recommendations` after title resolution. A label
stored more than once makes `indices[t]` a sub-series, and the sorting
step then raises on comparing rows (`RecOutcome.exn`); a label stored
exactly once follows the scalar path, and `df['title'].iloc` raises if
some selected position were out of range. -/
def recommend_at (t : String) (cosine_sim : List (List ℚ))
    (indices : List (String × Nat)) (df : List Movie) : RecOutcome :=
  match lookupAll indices t with
  | [idx] =>
    let mi := get_rec_indices idx cosine_sim
    if mi.all (fun i => decide (i < df.length)) then
      RecOutcome.list (mi.map (fun i => (df.getD i arbitraryMovie).title))
    else RecOutcome.exn
  | _ => RecOutcome.exn

/-- `get_recommendations` (movie.py:95-108). -/
def get_recommendations (title : String) (cosine_sim : List (List ℚ))
    (indices : List (String × Nat)) (df : List Movie) : RecOutcome :=
  match resolve_title title indices with
  | none => RecOutcome.message (notFoundMsg title)
  | some t => recommend_at t cosine_sim indices df

/-! ### Concrete corpora and inputs used by the claim theorems -/

/-- A sample raw record (four cast entries, director listed second). -/
def sampleRaw : RawRecord :=
  ⟨"T",
   some ("[\x7b\"name\": \"Science Fiction\"\x7d]"),
   some ("[\x7b\"name\": \"space war\"\x7d]"),
   some ("[\x7b\"name\": \"Aa B\"\x7d, \x7b\"name\": \"Cc\"\x7d, \x7b\"name\": \"Dd\"\x7d, \x7b\"name\": \"Ee\"\x7d]"),
   some ("[\x7b\"job\": \"Producer\", \"name\": \"X\"\x7d, \x7b\"job\": \"Director\", \"name\": \"Jo Do\"\x7d]")⟩

/-- The prepared movie for `sampleRaw`. -/
def sampleMovie : Movie :=
  ⟨"T", ["sciencefiction"], ["spacewar"], ["aab", "cc", "dd"], "jodo",
   "spacewar aab cc dd jodo sciencefiction"⟩
/-- A corpus with two distinct records sharing the title `"A"`. -/
def dfDupTitle : List Movie :=
  [⟨"A", [], [], [], "", "x"⟩, ⟨"A", [], [], [], "", "y"⟩]
/-- `[\x7b"name": "O'Brien"\x7d]` — valid JSON containing an apostrophe
inside a string value. -/
def oBrienJson : String :=
  "[\x7b\"name\": \"O" ++ String.singleton squote ++ "Brien\"\x7d]"

/-- `\x7b'a': 1\x7d` — invalid JSON that becomes valid after the
apostrophe-for-quote substitution. -/
def quotedKeyJson : String :=
  "\x7b" ++ String.singleton squote ++ "a" ++ String.singleton squote ++ ": 1\x7d"

/-- `["a','b"]` — valid JSON with apostrophes inside a string value
whose apostrophe-for-quote substitution `["a","b"]` is ALSO valid
JSON. -/
def aposPairJson : String :=
  "[\"a" ++ String.singleton squote ++ "," ++ String.singleton squote ++ "b\"]"


/-- The strict ranking order realized by the stable descending sort:
higher score first, ties by ascending original row index. -/
def lexOrd (a b : Nat × ℚ) : Prop := b.2 < a.2 ∨ (a.2 = b.2 ∧ a.1 < b.1)

/-- A corpus of two movies with identical soups (and hence cosine
similarity exactly 1 between rows 0 and 1). -/
def dfPair : List Movie :=
  [⟨"A", [], [], [], "", "action"⟩, ⟨"B", [], [], [], "", "action"⟩]

/-- The identity similarity matrix on two rows, as exact rationals. -/
def simW : List (List ℚ) := [[1, 0], [0, 1]]

/-- A one-movie corpus. -/
def dfOne : List Movie := [⟨"Alien", [], [], [], "", "alien"⟩]

/-! ### General lemmas -/

theorem toNat_ofNat_lt (n : Nat) (h : n < 55296) : (Char.ofNat n).toNat = n := by
  have hv : n.isValidChar := Or.inl h
  simp [Char.ofNat, hv, Char.ofNatAux, Char.toNat, UInt32.toNat, BitVec.toNat_ofNatLt]

theorem toLower_not_upper (c : Char) :
    ¬ (65 ≤ (Char.toLower c).toNat ∧ (Char.toLower c).toNat ≤ 90) := by
  unfold Char.toLower
  by_cases h : 65 ≤ c.toNat ∧ c.toNat ≤ 90
  · simp only [ge_iff_le, h, and_self, if_pos, if_true]
    rw [toNat_ofNat_lt _ (by omega)]
    omega
  · simp only [ge_iff_le]
    rw [if_neg (by omega)]
    omega

theorem toLower_ne_space (c : Char) (h : ¬ (c = ' ')) : ¬ (Char.toLower c = ' ') := by
  unfold Char.toLower
  by_cases hc : 65 ≤ c.toNat ∧ c.toNat ≤ 90
  · rw [if_pos (by omega)]
    intro he
    have h32 : (Char.ofNat (c.toNat + 32)).toNat = 32 := by rw [he]; rfl
    rw [toNat_ofNat_lt _ (by omega)] at h32
    omega
  · rw [if_neg (by omega)]
    exact h

/-- Every character of a cleaned string is a non-space, non-uppercase
character. -/
theorem cleanStr_chars (s : String) :
    ∀ c ∈ (cleanStr s).data, ¬ (c = ' ') ∧ ¬ (65 ≤ c.toNat ∧ c.toNat ≤ 90) := by
  intro c hc
  have hdata : (cleanStr s).data = (s.data.filter (fun c => decide (¬ (c = ' ')))).map Char.toLower := rfl
  rw [hdata] at hc
  rcases List.mem_map.mp hc with ⟨d, hd, rfl⟩
  have hds : ¬ (d = ' ') := by
    have := (List.mem_filter.mp hd).2
    simpa using this
  exact ⟨toLower_ne_space d hds, toLower_not_upper d⟩

theorem mapOpt_mem {α β : Type} (f : α → Option β) :
    ∀ (l : List α) (out : List β), mapOpt f l = some out →
      ∀ b ∈ out, ∃ a ∈ l, f a = some b := by
  intro l
  induction l with
  | nil =>
    intro out h b hb
    simp only [mapOpt, Option.some.injEq] at h
    subst h
    cases hb
  | cons hd tl ih =>
    intro out h b hb
    simp only [mapOpt] at h
    cases hfa : f hd with
    | none => rw [hfa] at h; cases h
    | some v =>
      rw [hfa] at h
      cases hrest : mapOpt f tl with
      | none => rw [hrest] at h; cases h
      | some vs =>
        rw [hrest] at h
        cases h
        rcases hb with _ | hb
        · exact ⟨hd, List.mem_cons_self hd tl, hfa⟩
        · rcases ih vs hrest b (by assumption) with ⟨a, ha, hfa2⟩
          exact ⟨a, List.mem_cons_of_mem hd ha, hfa2⟩

theorem mapOpt_length {α β : Type} (f : α → Option β) :
    ∀ (l : List α) (out : List β), mapOpt f l = some out →
      out.length = l.length := by
  intro l
  induction l with
  | nil =>
    intro out h
    simp only [mapOpt, Option.some.injEq] at h
    subst h
    rfl
  | cons hd tl ih =>
    intro out h
    simp only [mapOpt] at h
    cases hfa : f hd with
    | none => rw [hfa] at h; cases h
    | some v =>
      rw [hfa] at h
      cases hrest : mapOpt f tl with
      | none => rw [hrest] at h; cases h
      | some vs =>
        rw [hrest] at h
        cases h
        simp [ih vs hrest]

/-- Every string produced by `cleanList` is `cleanStr` of some string. -/
theorem cleanList_mem (l : List JsonVal) (out : List String)
    (h : cleanList l = some out) :
    ∀ t ∈ out, ∃ s, t = cleanStr s := by
  intro t ht
  rcases mapOpt_mem _ l out h t ht with ⟨a, _, hfa⟩
  cases a <;> simp_all
  exact ⟨_, hfa.symm⟩

/-- `cleanDirector` yields the empty string or a cleaned string. -/
theorem cleanDirector_cases (v : JsonVal) (out : String)
    (h : cleanDirector v = some out) :
    out = "" ∨ ∃ s, out = cleanStr s := by
  cases v <;> simp_all [cleanDirector]
  exact Or.inr ⟨_, h.symm⟩

/-- Inversion of a successful `prepare_record`. -/
theorem prepare_record_inv (r : RawRecord) (m : Movie)
    (h : prepare_record r = some m) :
    ∃ gn kn cn dval gl kl cl dir,
      get_director (safe_json_loads r.crew) = some dval ∧
      extract_names (safe_json_loads r.genres) = some gn ∧
      extract_names (safe_json_loads r.keywords) = some kn ∧
      extract_names_top3 (safe_json_loads r.cast) = some cn ∧
      cleanList gn = some gl ∧ cleanList kn = some kl ∧
      cleanList cn = some cl ∧ cleanDirector dval = some dir ∧
      m = ⟨r.title, gl, kl, cl, dir, create_soup kl cl dir gl⟩ := by
  unfold prepare_record at h
  dsimp only [] at h
  cases h1 : get_director (safe_json_loads r.crew) with
  | none => rw [h1] at h; cases h
  | some dval =>
    rw [h1] at h
    dsimp only [] at h
    cases h2 : extract_names (safe_json_loads r.genres) with
    | none => rw [h2] at h; cases h
    | some gn =>
      rw [h2] at h
      cases h3 : extract_names (safe_json_loads r.keywords) with
      | none => rw [h3] at h; cases h
      | some kn =>
        rw [h3] at h
        cases h4 : extract_names_top3 (safe_json_loads r.cast) with
        | none => rw [h4] at h; cases h
        | some cn =>
          rw [h4] at h
          dsimp only [] at h
          cases h5 : cleanList gn with
          | none => rw [h5] at h; cases h
          | some gl =>
            rw [h5] at h
            cases h6 : cleanList kn with
            | none => rw [h6] at h; cases h
            | some kl =>
              rw [h6] at h
              cases h7 : cleanList cn with
              | none => rw [h7] at h; cases h
              | some cl =>
                rw [h7] at h
                cases h8 : cleanDirector dval with
                | none => rw [h8] at h; cases h
                | some dir =>
                  rw [h8] at h
                  dsimp only [] at h
                  refine ⟨gn, kn, cn, dval, gl, kl, cl, dir,
                    rfl, rfl, rfl, rfl, h5, h6, h7, h8, ?_⟩
                  cases h
                  rfl

theorem intercalate_go_append (s : String) :
    ∀ (l : List String) (x y : String),
      String.intercalate.go (x ++ y) s l = x ++ String.intercalate.go y s l := by
  intro l
  induction l with
  | nil => intro x y; rfl
  | cons a as ih =>
    intro x y
    show String.intercalate.go (x ++ y ++ s ++ a) s as
        = x ++ String.intercalate.go (y ++ s ++ a) s as
    rw [String.append_assoc, String.append_assoc, ih, ← String.append_assoc]

theorem intercalate_go_cons (s a b : String) (l : List String) :
    String.intercalate.go a s (b :: l) = a ++ s ++ String.intercalate.go b s l := by
  show String.intercalate.go (a ++ s ++ b) s l = a ++ s ++ String.intercalate.go b s l
  rw [String.append_assoc, intercalate_go_append, intercalate_go_append,
    ← String.append_assoc]

/-- The soup equation: simple join with single-space separators. -/
theorem create_soup_intercalate (kw c : List String) (d : String) (g : List String) :
    create_soup kw c d g =
      String.intercalate (" ") [String.intercalate (" ") kw,
        String.intercalate (" ") c, d, String.intercalate (" ") g] := by
  show create_soup kw c d g
      = String.intercalate.go (String.intercalate (" ") kw) (" ")
          [String.intercalate (" ") c, d, String.intercalate (" ") g]
  rw [intercalate_go_cons, intercalate_go_cons, intercalate_go_cons]
  show create_soup kw c d g
      = String.intercalate (" ") kw ++ " " ++ (String.intercalate (" ") c ++ " "
          ++ (d ++ " " ++ String.intercalate.go (String.intercalate (" ") g) (" ") []))
  simp [create_soup, String.intercalate.go, String.append_assoc]

/-! ### Claim C8 -/


/-- How long a list a successful `extract_names_top3` can return. -/
theorem extract_top3_len (v : JsonVal) (out : List JsonVal)
    (h : extract_names_top3 v = some out) : out.length ≤ 3 := by
  cases v <;> simp_all [extract_names_top3]
  case jarr l =>
    have hl := mapOpt_length _ (l.take 3) out h
    rw [hl, List.length_take]
    exact min_le_left _ _

/-- C8: for every record the pipeline prepares, the soup is the
space-joined concatenation of normalized keywords, normalized cast (at
most 3 entries), normalized director, then normalized genres, in that
fixed order with single-space separators; it is a pure function
(`create_soup`) of the normalized record. -/
theorem claim_C8_soup_build (r : RawRecord) (m : Movie)
    (h : prepare_record r = some m) :
    m.soup = create_soup m.keywords m.cast m.director m.genres ∧
    m.soup = String.intercalate (" ") [String.intercalate (" ") m.keywords,
      String.intercalate (" ") m.cast, m.director,
      String.intercalate (" ") m.genres] ∧
    m.cast.length ≤ 3 := by
  rcases prepare_record_inv r m h with
    ⟨gn, kn, cn, dval, gl, kl, cl, dir, _, _, _, h4, _, _, h7, _, rfl⟩
  refine ⟨rfl, create_soup_intercalate .., ?_⟩
  have hlen := mapOpt_length _ cn cl h7
  have hcn := extract_top3_len _ cn h4
  simpa [hlen] using hcn

/-- Witness for C8 at `sampleRaw`. -/
theorem claim_C8_witness :
    sampleMovie.soup
        = create_soup sampleMovie.keywords sampleMovie.cast
            sampleMovie.director sampleMovie.genres ∧
    sampleMovie.soup
        = String.intercalate (" ") [String.intercalate (" ") sampleMovie.keywords,
            String.intercalate (" ") sampleMovie.cast, sampleMovie.director,
            String.intercalate (" ") sampleMovie.genres] ∧
    sampleMovie.cast.length ≤ 3 :=
  claim_C8_soup_build sampleRaw sampleMovie (by rfl)

/-! ### Claim C9 -/

/-- C9: every cleaned string has no space character and no uppercase
(ASCII) letter, and the cleaning is applied to every genre, keyword,
cast name and the director individually by the pipeline (the soup is
assembled only afterwards, from the already-cleaned fields). -/
theorem claim_C9_normalize_lower_nospace :
    (∀ s : String, ∀ c ∈ (cleanStr s).data,
        ¬ (c = ' ') ∧ ¬ (65 ≤ c.toNat ∧ c.toNat ≤ 90)) ∧
    (∀ r m, prepare_record r = some m →
      ∀ t ∈ (m.genres ++ m.keywords ++ m.cast ++ [m.director]),
        ∀ c ∈ t.data, ¬ (c = ' ') ∧ ¬ (65 ≤ c.toNat ∧ c.toNat ≤ 90)) := by
  constructor
  · exact cleanStr_chars
  · intro r m h t ht c hc
    rcases prepare_record_inv r m h with
      ⟨gn, kn, cn, dval, gl, kl, cl, dir, _, _, _, _, h5, h6, h7, h8, rfl⟩
    simp only [List.mem_append, List.mem_singleton] at ht
    have himg : t = "" ∨ ∃ s, t = cleanStr s := by
      rcases ht with ((hg | hk) | hc3) | hd
      · exact Or.inr (cleanList_mem gn gl h5 t hg)
      · exact Or.inr (cleanList_mem kn kl h6 t hk)
      · exact Or.inr (cleanList_mem cn cl h7 t hc3)
      · rw [hd]; exact cleanDirector_cases dval dir h8
    rcases himg with rfl | ⟨s, rfl⟩
    · cases hc
    · exact cleanStr_chars s c hc

/-- Witness for C9 on `"Science Fiction"` and on the prepared
`sampleRaw` record. -/
theorem claim_C9_witness :
    (¬ (('s' : Char) = ' ') ∧ ¬ (65 ≤ ('s' : Char).toNat ∧ ('s' : Char).toNat ≤ 90)) ∧
    (¬ (('a' : Char) = ' ') ∧ ¬ (65 ≤ ('a' : Char).toNat ∧ ('a' : Char).toNat ≤ 90)) :=
  ⟨claim_C9_normalize_lower_nospace.1 ("Science Fiction") 's' (by decide),
   claim_C9_normalize_lower_nospace.2 sampleRaw sampleMovie (by rfl)
     ("aab") (by decide) 'a' (by decide)⟩

/-! ### Claim C2 -/

/-- C2: a query title with no exact and no case-insensitive match among
the indexed titles yields the typed not-found message carrying the
title, not a list and not a crash. -/
theorem claim_C2_not_found (title : String) (sim : List (List ℚ))
    (indices : List (String × Nat)) (df : List Movie)
    (hci : ∀ p ∈ indices, ¬ (lowerStr p.1 = lowerStr title)) :
    get_recommendations title sim indices df
      = RecOutcome.message (notFoundMsg title) := by
  have h1 : ¬ (title ∈ titleKeys indices) := by
    intro hmem
    rcases List.mem_map.mp hmem with ⟨p, hp, hpe⟩
    exact hci p hp (by rw [hpe])
  have h2 : (titleKeys indices).filter (fun t => lowerStr t = lowerStr title) = [] := by
    rw [List.filter_eq_nil_iff]
    intro t ht
    rcases List.mem_map.mp ht with ⟨p, hp, rfl⟩
    simpa using hci p hp
  unfold get_recommendations resolve_title
  rw [if_neg h1, h2]

/-- Witness for C2 on the query `"Zed"`. -/
theorem claim_C2_witness :
    get_recommendations ("Zed") [[1, 0], [0, 1]]
        [("Alien", 0), ("Blade", 1)] []
      = RecOutcome.message (notFoundMsg ("Zed")) :=
  claim_C2_not_found ("Zed") _ _ _ (by decide)

/-! ### Claim C4 -/


/-- C4 fails on the code: `drop_duplicates()` deduplicates the VALUES
(row numbers, always distinct), not the title labels, so a duplicated
title stays mapped to BOTH rows, and a query for it crashes in the
sorting step rather than reaching the first-seen row. -/
theorem claim_C4_duplicate_titles_both_indexed :
    build_indices dfDupTitle = [("A", 0), ("A", 1)] ∧
    lookupAll (build_indices dfDupTitle) ("A") = [0, 1] ∧
    get_recommendations ("A") [[1, 0], [0, 1]] (build_indices dfDupTitle) dfDupTitle
      = RecOutcome.exn :=
  ⟨rfl, rfl, rfl⟩

/-! ### Claim C10 -/


/-- C10 as amended: `safe_json_loads` substitutes every apostrophe by a
double quote before parsing, so it succeeds exactly when the substituted
text — not the original — is valid JSON.  A valid-JSON input with an
apostrophe inside a string value therefore degrades to `[]` whenever the
substitution breaks its validity (as for `O'Brien`), though not for
every such input (see the counterexample); and an apostrophe-quoted
input that is not valid JSON parses successfully. -/
theorem claim_C10_quote_substitution :
    (∀ s, safe_json_loads (some s) = (Json.parse (jsonSub s)).getD (JsonVal.jarr [])) ∧
    (Json.parse oBrienJson).isSome = true ∧
    safe_json_loads (some oBrienJson) = JsonVal.jarr [] ∧
    Json.parse quotedKeyJson = none ∧
    safe_json_loads (some quotedKeyJson) = JsonVal.jobj [("a", JsonVal.jnum ("1"))] := by
  refine ⟨?_, rfl, rfl, rfl, rfl⟩
  intro s
  unfold safe_json_loads
  cases h : Json.parse (jsonSub s) <;> simp [h]

/-- Counterexample to C10 as stated: `["a','b"]` is valid JSON and
contains apostrophes inside a string value, yet its substitution
`["a","b"]` is also valid JSON, so the field parses to the two-element
list instead of degrading to `[]`. -/
theorem claim_C10_counterexample :
    (Json.parse aposPairJson).isSome = true ∧
    aposPairJson.data.contains squote = true ∧
    safe_json_loads (some aposPairJson)
      = JsonVal.jarr [JsonVal.jstr ("a"), JsonVal.jstr ("b")] ∧
    ¬ (safe_json_loads (some aposPairJson) = JsonVal.jarr []) :=
  ⟨rfl, rfl, rfl, by intro h; rw [show safe_json_loads (some aposPairJson)
      = JsonVal.jarr [JsonVal.jstr ("a"), JsonVal.jstr ("b")] from rfl] at h; simp at h⟩

/-! ### Claim C5 -/

/-- C5: the field parser never propagates a parse failure: an absent
(NaN) cell and any unparseable text both degrade to the empty list, and
the record pipeline proceeds exactly as if the field were absent. -/
theorem claim_C5_malformed_degrades (s : String) (r : RawRecord)
    (hbad : Json.parse (jsonSub s) = none) :
    safe_json_loads none = JsonVal.jarr [] ∧
    safe_json_loads (some s) = JsonVal.jarr [] ∧
    prepare_record { r with genres := some s } = prepare_record { r with genres := none } ∧
    prepare_record { r with keywords := some s } = prepare_record { r with keywords := none } ∧
    prepare_record { r with cast := some s } = prepare_record { r with cast := none } ∧
    prepare_record { r with crew := some s } = prepare_record { r with crew := none } := by
  have hs : safe_json_loads (some s) = JsonVal.jarr [] := by
    unfold safe_json_loads
    dsimp only []
    rw [hbad]
  refine ⟨rfl, hs, ?_, ?_, ?_, ?_⟩ <;>
    simp [prepare_record, safe_json_loads, hbad]

/-- Witness for C5 on the unparseable text `"@@"`. -/
theorem claim_C5_witness :
    safe_json_loads none = JsonVal.jarr [] ∧
    safe_json_loads (some ("@@")) = JsonVal.jarr [] ∧
    prepare_record { (⟨"T", none, none, none, none⟩ : RawRecord) with genres := some ("@@") }
      = prepare_record { (⟨"T", none, none, none, none⟩ : RawRecord) with genres := none } ∧
    prepare_record { (⟨"T", none, none, none, none⟩ : RawRecord) with keywords := some ("@@") }
      = prepare_record { (⟨"T", none, none, none, none⟩ : RawRecord) with keywords := none } ∧
    prepare_record { (⟨"T", none, none, none, none⟩ : RawRecord) with cast := some ("@@") }
      = prepare_record { (⟨"T", none, none, none, none⟩ : RawRecord) with cast := none } ∧
    prepare_record { (⟨"T", none, none, none, none⟩ : RawRecord) with crew := some ("@@") }
      = prepare_record { (⟨"T", none, none, none, none⟩ : RawRecord) with crew := none } :=
  claim_C5_malformed_degrades ("@@") ⟨"T", none, none, none, none⟩ (by rfl)

/-! ### Claim C3 -/

/-- The vocabulary is empty exactly when every document's surviving
token list is empty. -/
theorem vocabOf_eq_nil_iff (soups : List String) :
    vocabOf soups = [] ↔ ∀ s ∈ soups, docTokens s = [] := by
  unfold vocabOf docsOf
  rw [List.dedup_eq_nil, List.flatten_eq_nil_iff]
  exact List.forall_mem_map

/-- C3 as amended: engine initialization FAILS (with sklearn's
empty-vocabulary `ValueError`) precisely when the corpus is empty or
every soup is empty or entirely stop-words; it does not complete with an
all-zero similarity state. -/
theorem claim_C3_empty_vocab_error (df : List Movie) :
    (create_recommendation_engine df = Except.error emptyVocabMsg
      ↔ ∀ m ∈ df, docTokens m.soup = []) ∧
    ((¬ ∀ m ∈ df, docTokens m.soup = []) →
      create_recommendation_engine df
        = Except.ok (cosine_simR (df.map (fun m => m.soup)), build_indices df)) := by
  have hiff : vocabOf (df.map (fun m => m.soup)) = []
      ↔ ∀ m ∈ df, docTokens m.soup = [] := by
    rw [vocabOf_eq_nil_iff]
    exact List.forall_mem_map
  constructor
  · constructor
    · intro h
      by_cases hv : vocabOf (df.map (fun m => m.soup)) = []
      · exact hiff.mp hv
      · exfalso
        unfold create_recommendation_engine at h
        dsimp only [] at h
        rw [if_neg hv] at h
        cases h
    · intro h
      unfold create_recommendation_engine
      dsimp only []
      rw [if_pos (hiff.mpr h)]
  · intro h
    unfold create_recommendation_engine
    dsimp only []
    rw [if_neg (fun hv => h (hiff.mp hv))]

/-- A movie whose soup is a single stop-word. -/
def stopMovie : Movie := ⟨"S", [], [], [], "", "the"⟩

/-- Counterexample to C3 as stated: on the one-movie corpus whose soup
is the stop-word `"the"`, and on the empty corpus, engine initialization
raises the empty-vocabulary error instead of completing. -/
theorem claim_C3_counterexample :
    create_recommendation_engine [stopMovie] = Except.error emptyVocabMsg ∧
    create_recommendation_engine ([] : List Movie) = Except.error emptyVocabMsg := by
  constructor
  · have h : vocabOf ([stopMovie].map (fun m => m.soup)) = [] := by decide
    unfold create_recommendation_engine
    dsimp only []
    rw [if_pos h]
  · have h : vocabOf (([] : List Movie).map (fun m => m.soup)) = [] := by decide
    unfold create_recommendation_engine
    dsimp only []
    rw [if_pos h]

/-- Witness for C3 (amended): a corpus with a usable token initializes. -/
theorem claim_C3_witness :
    create_recommendation_engine dfPair
      = Except.ok (cosine_simR (dfPair.map (fun m => m.soup)), build_indices dfPair) :=
  (claim_C3_empty_vocab_error dfPair).2 (by decide)

/-! ### Claim C7 -/

theorem dfCount_le (soups : List String) (t : String) :
    dfCount soups t ≤ soups.length := by
  unfold dfCount
  calc (((docsOf soups).filter (fun d => decide (t ∈ d))).length)
      ≤ (docsOf soups).length := List.length_filter_le _ _
    _ = soups.length := List.length_map _ _

theorem idf_ge_one (soups : List String) (t : String) : 1 ≤ idf soups t := by
  unfold idf
  have hpos : (0 : ℝ) < (dfCount soups t : ℝ) + 1 := by positivity
  have h1 : (1 : ℝ) ≤ ((soups.length : ℝ) + 1) / ((dfCount soups t : ℝ) + 1) := by
    rw [le_div_iff₀ hpos]
    have := dfCount_le soups t
    have : (dfCount soups t : ℝ) ≤ (soups.length : ℝ) := by exact_mod_cast this
    linarith
  have := Real.log_nonneg h1
  linarith

theorem tfidfW_nonneg (soups : List String) (d : List String) (t : String) :
    0 ≤ tfidfW soups d t := by
  unfold tfidfW
  have h := idf_ge_one soups t
  positivity

theorem sqnorm_nonneg (soups : List String) (d : List String) :
    0 ≤ sqnorm soups d :=
  Finset.sum_nonneg (fun _ _ => sq_nonneg _)

theorem nweight_nonneg (soups : List String) (d : List String) (t : String) :
    0 ≤ nweight soups d t := by
  unfold nweight
  split
  · exact le_refl 0
  · exact div_nonneg (tfidfW_nonneg soups d t) (Real.sqrt_nonneg _)

theorem simDocs_comm (soups : List String) (d e : List String) :
    simDocs soups d e = simDocs soups e d :=
  Finset.sum_congr rfl (fun _ _ => mul_comm _ _)

theorem simDocs_nonneg (soups : List String) (d e : List String) :
    0 ≤ simDocs soups d e :=
  Finset.sum_nonneg (fun t _ =>
    mul_nonneg (nweight_nonneg soups d t) (nweight_nonneg soups e t))

theorem simDocs_self (soups : List String) (d : List String) :
    simDocs soups d d = if sqnorm soups d = 0 then 0 else 1 := by
  by_cases h : sqnorm soups d = 0
  · rw [if_pos h]
    unfold simDocs nweight
    simp [h]
  · rw [if_neg h]
    have hnn := sqnorm_nonneg soups d
    have hstep : ∀ t ∈ (vocabOf soups).toFinset,
        nweight soups d t * nweight soups d t
          = (tfidfW soups d t) ^ 2 / sqnorm soups d := by
      intro t _
      unfold nweight
      rw [if_neg h, div_mul_div_comm, Real.mul_self_sqrt hnn, ← pow_two]
    unfold simDocs
    rw [Finset.sum_congr rfl hstep, ← Finset.sum_div]
    exact div_self h

theorem simDocs_self_le_one (soups : List String) (d : List String) :
    simDocs soups d d ≤ 1 := by
  rw [simDocs_self]
  split
  · exact zero_le_one
  · exact le_refl 1

theorem simDocs_le_one (soups : List String) (d e : List String) :
    simDocs soups d e ≤ 1 := by
  have hcs := Finset.sum_mul_sq_le_sq_mul_sq ((vocabOf soups).toFinset)
    (nweight soups d) (nweight soups e)
  have hdd : (∑ t ∈ (vocabOf soups).toFinset, (nweight soups d t) ^ 2)
      = simDocs soups d d := by
    unfold simDocs
    exact Finset.sum_congr rfl (fun t _ => pow_two _)
  have hee : (∑ t ∈ (vocabOf soups).toFinset, (nweight soups e t) ^ 2)
      = simDocs soups e e := by
    unfold simDocs
    exact Finset.sum_congr rfl (fun t _ => pow_two _)
  rw [hdd, hee] at hcs
  have h1 : (simDocs soups d e) ^ 2 ≤ 1 := by
    calc (simDocs soups d e) ^ 2
        ≤ simDocs soups d d * simDocs soups e e := hcs
      _ ≤ 1 * 1 := by
          exact mul_le_mul (simDocs_self_le_one soups d) (simDocs_self_le_one soups e)
            (simDocs_nonneg soups e e) zero_le_one
      _ = 1 := one_mul 1
  nlinarith [simDocs_nonneg soups d e]

theorem sqnorm_nil (soups : List String) : sqnorm soups [] = 0 := by
  unfold sqnorm tfidfW
  simp

theorem sqnorm_ne_zero (soups : List String) (d : List String)
    (hd : ∀ t ∈ d, t ∈ vocabOf soups) (hne : ¬ (d = [])) :
    ¬ (sqnorm soups d = 0) := by
  rcases List.exists_mem_of_ne_nil d hne with ⟨t0, ht0⟩
  have hmem : t0 ∈ (vocabOf soups).toFinset := List.mem_toFinset.mpr (hd t0 ht0)
  have hcount : (1 : ℝ) ≤ (d.count t0 : ℝ) := by
    exact_mod_cast Nat.one_le_iff_ne_zero.mpr
      (Nat.pos_iff_ne_zero.mp (List.count_pos_iff.mpr ht0))
  have hw : (1 : ℝ) ≤ tfidfW soups d t0 := by
    unfold tfidfW
    calc (1 : ℝ) = 1 * 1 := (one_mul 1).symm
      _ ≤ (d.count t0 : ℝ) * idf soups t0 :=
          mul_le_mul hcount (idf_ge_one soups t0) zero_le_one
            (le_trans zero_le_one hcount)
  have hterm : (1 : ℝ) ≤ (tfidfW soups d t0) ^ 2 := by nlinarith
  have hsum : (tfidfW soups d t0) ^ 2 ≤ sqnorm soups d :=
    Finset.single_le_sum (f := fun t => (tfidfW soups d t) ^ 2)
      (fun t _ => sq_nonneg _) hmem
  intro h0
  rw [h0] at hsum
  linarith

theorem docTokens_mem_vocab (soups : List String) (i : Nat)
    (hi : i < soups.length) :
    ∀ t ∈ (docsOf soups).getD i [], t ∈ vocabOf soups := by
  intro t ht
  have hlen : i < (docsOf soups).length := by
    unfold docsOf
    rw [List.length_map]
    exact hi
  have hget : (docsOf soups).getD i [] ∈ docsOf soups := by
    rw [List.getD_eq_getElem _ _ hlen]
    exact List.getElem_mem _
  unfold vocabOf
  exact List.mem_dedup.mpr (List.mem_flatten.mpr ⟨_, hget, ht⟩)

/-- C7: the similarity matrix is symmetric (`sim i j = sim j i` for all
`i`, `j`, with value 0 outside the square), every entry lies in `[0,1]`,
and the diagonal entry is exactly `1` for a row with at least one
surviving (non-stop-word) token and exactly `0` for a row whose soup is
empty or entirely stop-words.  Stated over `ℝ`, where the exact values
1.0 and 0.0 of the spec hold with no floating-point tolerance. -/
theorem claim_C7_similarity_matrix (soups : List String) (i j : Nat) :
    cosine_simR soups i j = cosine_simR soups j i ∧
    0 ≤ cosine_simR soups i j ∧ cosine_simR soups i j ≤ 1 ∧
    cosine_simR soups i i = (if (docsOf soups).getD i [] = [] then 0 else 1) := by
  refine ⟨simDocs_comm soups _ _, simDocs_nonneg soups _ _, simDocs_le_one soups _ _, ?_⟩
  unfold cosine_simR
  rw [simDocs_self]
  by_cases hnil : (docsOf soups).getD i [] = []
  · rw [if_pos hnil, hnil, if_pos (sqnorm_nil soups)]
  · rw [if_neg hnil]
    have hi : i < soups.length := by
      by_contra hge
      apply hnil
      unfold docsOf
      apply List.getD_eq_default
      rw [List.length_map]
      omega
    rw [if_neg (sqnorm_ne_zero soups _ (docTokens_mem_vocab soups i hi) hnil)]

/-! ### Claims C1 and C6 -/

theorem lexOrd_asymm (a b : Nat × ℚ) (h1 : lexOrd a b) (h2 : lexOrd b a) : False := by
  rcases h1 with h1 | ⟨h1a, h1b⟩ <;> rcases h2 with h2 | ⟨h2a, h2b⟩
  · exact lt_asymm h1 h2
  · exact absurd h1 (by rw [h2a]; exact lt_irrefl _)
  · exact absurd h2 (by rw [h1a]; exact lt_irrefl _)
  · omega

theorem orderedInsert_lex_sorted (x : Nat × ℚ) :
    ∀ (L : List (Nat × ℚ)), List.Sorted lexOrd L → (∀ y ∈ L, x.1 < y.1) →
      List.Sorted lexOrd (List.orderedInsert (fun a b => b.2 ≤ a.2) x L) := by
  intro L
  induction L with
  | nil => intro _ _; simp [List.orderedInsert]
  | cons y ys ih =>
    intro hs hx
    rw [List.orderedInsert]
    by_cases hr : y.2 ≤ x.2
    · rw [if_pos hr, List.sorted_cons]
      refine ⟨?_, hs⟩
      intro z hz
      rcases List.mem_cons.mp hz with rfl | hz2
      · rcases lt_or_eq_of_le hr with hlt | heq
        · exact Or.inl hlt
        · exact Or.inr ⟨heq.symm, hx z (List.mem_cons_self _ _)⟩
      · have hyz := (List.sorted_cons.mp hs).1 z hz2
        rcases hyz with hlt | ⟨heq, _⟩
        · exact Or.inl (lt_of_lt_of_le hlt hr)
        · rcases lt_or_eq_of_le hr with hlt2 | heq2
          · exact Or.inl (heq ▸ hlt2)
          · exact Or.inr ⟨by rw [← heq2, heq], hx z (List.mem_cons_of_mem _ hz2)⟩
    · rw [if_neg hr, List.sorted_cons]
      push_neg at hr
      constructor
      · intro z hz
        rw [List.mem_orderedInsert] at hz
        rcases hz with rfl | hz2
        · exact Or.inl hr
        · exact (List.sorted_cons.mp hs).1 z hz2
      · exact ih (List.sorted_cons.mp hs).2
          (fun y2 hy2 => hx y2 (List.mem_cons_of_mem _ hy2))

theorem sortScores_sorted (l : List (Nat × ℚ))
    (hfst : List.Pairwise (fun a b => a.1 < b.1) l) :
    List.Sorted lexOrd (sortScores l) := by
  unfold sortScores
  induction l with
  | nil => simp
  | cons x xs ih =>
    rw [List.insertionSort]
    apply orderedInsert_lex_sorted
    · exact ih (List.pairwise_cons.mp hfst).2
    · intro y hy
      exact (List.pairwise_cons.mp hfst).1 y
        ((List.perm_insertionSort _ xs).mem_iff.mp hy)

theorem enum_pairwise_fst {α : Type} (l : List α) :
    List.Pairwise (fun a b => a.1 < b.1) l.enum := by
  have h := List.pairwise_lt_range l.length
  rw [← List.enum_map_fst l] at h
  exact List.pairwise_map.mp h

theorem sorted_head_eq_top (L : List (Nat × ℚ)) (hs : List.Sorted lexOrd L)
    (x : Nat × ℚ) (hmem : x ∈ L)
    (htop : ∀ y ∈ L, ¬ (y = x) → lexOrd x y) :
    ∃ rest, L = x :: rest := by
  cases L with
  | nil => cases hmem
  | cons h rest =>
    by_cases hhx : h = x
    · exact ⟨rest, by rw [hhx]⟩
    · exfalso
      have h1 : lexOrd x h := htop h (List.mem_cons_self _ _) hhx
      have hxr : x ∈ rest := by
        rcases List.mem_cons.mp hmem with heq | hm
        · exact absurd heq.symm hhx
        · exact hm
      exact lexOrd_asymm x h h1 ((List.sorted_cons.mp hs).1 x hxr)

end MovieRec
namespace MovieRec

/-- C1 as amended: under a well-formed resolution (title resolved to the
unique row `idx`, matrix row of corpus width), `get_recommendations`
returns the titles of the stable descending ranking of ALL rows with its
FIRST entry removed, truncated to 10 — hence at most 10 titles, fewer
than 10 exactly when the corpus has fewer than 11 movies — and the
query's own row is excluded whenever the query row ranks strictly first
(in particular whenever every other row of its similarity row scores
strictly below its self-similarity); an earlier row tying at the top
displaces it, in which case the query row itself can be returned (see
the counterexample). -/
theorem claim_C1_ranking
    (title t : String) (sim : List (List ℚ)) (indices : List (String × Nat))
    (df : List Movie) (idx : Nat)
    (hres : resolve_title title indices = some t)
    (hlook : lookupAll indices t = [idx])
    (hrow : (sim.getD idx []).length = df.length)
    (hidx : idx < df.length) :
    List.Sorted lexOrd (sortScores (sim.getD idx []).enum) ∧
    List.Perm (sortScores (sim.getD idx []).enum) ((sim.getD idx []).enum) ∧
    (get_rec_indices idx sim).length = min 10 (df.length - 1) ∧
    get_recommendations title sim indices df
      = RecOutcome.list ((get_rec_indices idx sim).map
          (fun i => (df.getD i arbitraryMovie).title)) ∧
    ((∀ j, j < df.length → ¬ (j = idx) →
        ((sim.getD idx []).getD j 0 < (sim.getD idx []).getD idx 0 ∨
          ((sim.getD idx []).getD j 0 = (sim.getD idx []).getD idx 0 ∧ idx < j))) →
      ¬ (idx ∈ get_rec_indices idx sim)) := by
  set row := sim.getD idx [] with hrowdef
  have hsorted := sortScores_sorted row.enum (enum_pairwise_fst row)
  have hperm : List.Perm (sortScores row.enum) (row.enum) := List.perm_insertionSort _ _
  have hlen : (sortScores row.enum).length = row.length := by
    rw [hperm.length_eq, List.enum_length]
  have hmi_len : (get_rec_indices idx sim).length = min 10 (df.length - 1) := by
    unfold get_rec_indices
    rw [List.length_map, List.length_take, List.length_drop, ← hrowdef, hlen, hrow]
  have hmem_bound : ∀ i ∈ get_rec_indices idx sim, i < df.length := by
    intro i hi
    unfold get_rec_indices at hi
    rcases List.mem_map.mp hi with ⟨p, hp, rfl⟩
    have hp2 : p ∈ sortScores row.enum :=
      List.drop_subset _ _ (List.take_subset _ _ hp)
    have hp3 : p ∈ row.enum := hperm.mem_iff.mp hp2
    have hp4 := List.mem_enum_iff_getElem?.mp hp3
    rcases List.getElem?_eq_some.mp hp4 with ⟨hlt, _⟩
    rw [hrow] at hlt
    exact hlt
  have heq : get_recommendations title sim indices df
      = RecOutcome.list ((get_rec_indices idx sim).map
          (fun i => (df.getD i arbitraryMovie).title)) := by
    unfold get_recommendations
    rw [hres]
    dsimp only []
    unfold recommend_at
    rw [hlook]
    dsimp only []
    rw [if_pos ?_]
    rw [List.all_eq_true]
    intro i hi
    simpa using hmem_bound i hi
  refine ⟨hsorted, hperm, hmi_len, heq, ?_⟩
  intro htop
  have hidxrow : idx < row.length := by rw [hrow]; exact hidx
  have hxmem : (idx, row.getD idx 0) ∈ row.enum := by
    rw [List.mem_enum_iff_getElem?]
    rw [List.getElem?_eq_getElem hidxrow]
    rw [List.getD_eq_getElem _ _ hidxrow]
  have htop2 : ∀ y ∈ row.enum, ¬ (y = (idx, row.getD idx 0)) →
      lexOrd (idx, row.getD idx 0) y := by
    intro y hy hne
    have hy2 := List.mem_enum_iff_getElem?.mp hy
    rcases List.getElem?_eq_some.mp hy2 with ⟨hjlt, hyval⟩
    have hygetD : row.getD y.1 0 = y.2 := by
      rw [List.getD_eq_getElem _ _ hjlt, hyval]
    by_cases hji : y.1 = idx
    · exfalso
      apply hne
      apply Prod.ext_iff.mpr
      refine ⟨hji, ?_⟩
      rw [← hygetD, hji]
    · have hjdf : y.1 < df.length := by rw [← hrow]; exact hjlt
      rcases htop y.1 hjdf hji with h | ⟨h, hlt⟩
      · exact Or.inl (by rw [← hygetD]; exact h)
      · exact Or.inr ⟨by rw [← hygetD, h], hlt⟩
  have hxs : (idx, row.getD idx 0) ∈ sortScores row.enum := hperm.mem_iff.mpr hxmem
  have htop3 : ∀ y ∈ sortScores row.enum, ¬ (y = (idx, row.getD idx 0)) →
      lexOrd (idx, row.getD idx 0) y :=
    fun y hy => htop2 y (hperm.mem_iff.mp hy)
  rcases sorted_head_eq_top _ hsorted _ hxs htop3 with ⟨rest, hL⟩
  have hnodup : ((sortScores row.enum).map Prod.fst).Nodup := by
    have hr : (row.enum.map Prod.fst).Nodup := by
      rw [List.enum_map_fst]
      exact List.nodup_range _
    exact ((hperm.map Prod.fst).nodup_iff).mpr hr
  rw [hL, List.map_cons] at hnodup
  have hidx_not : ¬ (idx ∈ rest.map Prod.fst) := (List.nodup_cons.mp hnodup).1
  intro hin
  apply hidx_not
  unfold get_rec_indices at hin
  rw [← hrowdef, hL] at hin
  simp only [List.drop_succ_cons, List.drop_zero] at hin
  rcases List.mem_map.mp hin with ⟨p, hp, rfl⟩
  exact List.mem_map_of_mem _ (List.take_subset _ _ hp)

end MovieRec
namespace MovieRec

/-- Counterexample to C1 as stated: in the two-movie corpus `dfPair`
whose rows have identical soups, the TF-IDF cosine matrix is exactly
`[[1, 1], [1, 1]]` (last three conjuncts, over `ℝ`; the remaining entry
equals the (0,1) entry since the matrix is symmetric), and on that matrix
the query `"B"` — row 1 — returns `["B"]`: the recommendation list
contains the query movie's own row, because the slice `[1:11]` drops the
top-ranked entry (row 0, tied at score 1) instead of the query row. -/
theorem claim_C1_counterexample :
    get_recommendations ("B") [[1, 1], [1, 1]] (build_indices dfPair) dfPair
      = RecOutcome.list ["B"] ∧
    lookupAll (build_indices dfPair) ("B") = [1] ∧
    get_rec_indices 1 [[1, 1], [1, 1]] = [1] ∧
    cosine_simR (dfPair.map (fun m => m.soup)) 0 0 = 1 ∧
    cosine_simR (dfPair.map (fun m => m.soup)) 0 1 = 1 ∧
    cosine_simR (dfPair.map (fun m => m.soup)) 1 1 = 1 := by
  have key : simDocs (["action", "action"]) (["action"]) (["action"]) = 1 := by
    rw [simDocs_self]
    rw [if_neg (sqnorm_ne_zero _ _ (by decide) (by decide))]
  have hsoups : dfPair.map (fun m => m.soup) = ["action", "action"] := rfl
  have hdocs : docsOf (["action", "action"]) = [["action"], ["action"]] := by decide
  refine ⟨by decide, by decide, by decide, ?_, ?_, ?_⟩ <;>
    · rw [hsoups]
      unfold cosine_simR
      rw [hdocs]
      exact key

/-- Witness for C1 (amended) at a concrete diagonal matrix. -/
theorem claim_C1_witness :
    List.Sorted lexOrd (sortScores ((simW.getD 0 []).enum)) ∧
    List.Perm (sortScores ((simW.getD 0 []).enum)) ((simW.getD 0 []).enum) ∧
    (get_rec_indices 0 simW).length = min 10 (dfPair.length - 1) ∧
    get_recommendations ("A") simW (build_indices dfPair) dfPair
      = RecOutcome.list ((get_rec_indices 0 simW).map
          (fun i => (dfPair.getD i arbitraryMovie).title)) ∧
    ((∀ j, j < dfPair.length → ¬ (j = 0) →
        ((simW.getD 0 []).getD j 0 < (simW.getD 0 []).getD 0 0 ∨
          ((simW.getD 0 []).getD j 0 = (simW.getD 0 []).getD 0 0 ∧ 0 < j))) →
      ¬ (0 ∈ get_rec_indices 0 simW)) :=
  claim_C1_ranking ("A") ("A") simW (build_indices dfPair) dfPair 0
    (by decide) (by decide) (by decide) (by decide)

/-- C6: a title with no exact match but a case-insensitive match
resolves to the FIRST case-insensitive match among the indexed titles in
corpus order, recommendation proceeds from that resolved title and never
returns the not-found message; and an exact match always takes priority
over the fallback. -/
theorem claim_C6_case_insensitive (title t0 : String) (sim : List (List ℚ))
    (indices : List (String × Nat)) (df : List Movie) (rest : List String)
    (hnex : ¬ (title ∈ titleKeys indices))
    (hfil : (titleKeys indices).filter (fun t => lowerStr t = lowerStr title)
      = t0 :: rest) :
    resolve_title title indices = some t0 ∧
    get_recommendations title sim indices df = recommend_at t0 sim indices df ∧
    (∀ s, ¬ (recommend_at t0 sim indices df = RecOutcome.message s)) ∧
    (∀ (title2 : String) (indices2 : List (String × Nat)),
        title2 ∈ titleKeys indices2 → resolve_title title2 indices2 = some title2) := by
  have hres : resolve_title title indices = some t0 := by
    unfold resolve_title
    rw [if_neg hnex, hfil]
  refine ⟨hres, ?_, ?_, ?_⟩
  · unfold get_recommendations
    rw [hres]
  · intro s
    unfold recommend_at
    cases hl : lookupAll indices t0 with
    | nil => simp
    | cons i l =>
      cases l with
      | nil =>
        dsimp only []
        split
        · simp
        · simp
      | cons j l2 => simp
  · intro title2 indices2 h2
    unfold resolve_title
    rw [if_pos h2]

/-- Witness for C6: query `"ALIEN"` resolves to the stored `"Alien"`. -/
theorem claim_C6_witness :
    resolve_title ("ALIEN") [("Alien", 0)] = some ("Alien") ∧
    get_recommendations ("ALIEN") [[1]] [("Alien", 0)] dfOne
      = recommend_at ("Alien") [[1]] [("Alien", 0)] dfOne ∧
    (∀ s, ¬ (recommend_at ("Alien") [[1]] [("Alien", 0)] dfOne = RecOutcome.message s)) ∧
    (∀ (title2 : String) (indices2 : List (String × Nat)),
        title2 ∈ titleKeys indices2 → resolve_title title2 indices2 = some title2) :=
  claim_C6_case_insensitive ("ALIEN") ("Alien") [[1]] [("Alien", 0)] dfOne []
    (by decide) (by decide)

end MovieRec
